import Mathlib

/-!
# Verification of `FilteredBackingStore.cpp`

A shallow embedding of `eden/fs/store/FilteredBackingStore.cpp` (the filtered
backing store decorator) together with proofs about its operations.

Modelling conventions:

* Byte strings (`std::string`, `folly::StringPiece`, `ObjectId`/`RootId`
  values, relative paths) are `List Nat`, one `Nat` per byte.
* `size_t`/`uint64_t` arithmetic is `Nat` with explicit `% 2 ^ 64` where the
  source truncates.
* Fallible operations return `Except`; a C++ exception is an `error`
  constructor.  Out-of-bounds memory accesses (undefined behaviour in the
  source) are modelled as their own `error` constructors so they stay
  distinguishable from exceptions the source throws deliberately.
* `folly::ImmediateFuture` is modelled by `ImmediateFuture`: either already
  completed (`ready`, holding a `folly::Try`, i.e. a value or an exception) or
  not yet completed (`pending`).
* The inner `BackingStore` and the `Filter` are external collaborators and are
  passed in as function parameters.
-/

/-! ## Varint codec (`folly/Varint.h`)

The source length-prefixes the inner root id with `folly::encodeVarint` and
reads it back with `folly::tryDecodeVarint` (unsigned LEB128, at most 10 bytes
for a `uint64_t`; the tenth byte contributes only its lowest bit). -/

/-- The loop of `folly::encodeVarint`, written with an explicit fuel bound so
that it is structurally recursive (and hence reducible by the kernel); any
`fuel > val` makes the bound irrelevant, since the value shrinks by a factor
of 128 every iteration. -/
def encodeVarintFuel : Nat → Nat → List Nat
  | 0, _ => []
  | fuel + 1, val =>
    if val < 128 then [val]
    else (128 + val % 128) :: encodeVarintFuel fuel (val / 128)

/-- `folly::encodeVarint`: unsigned LEB128, 7 bits per byte, most significant
bit of a byte set when more bytes follow. -/
def encodeVarint (val : Nat) : List Nat :=
  encodeVarintFuel (val + 1) val

/-- The byte-consuming loop of `folly::tryDecodeVarint`.  `i` is the index of
the byte about to be read, `acc` the value accumulated so far.  A byte with the
high bit clear ends the varint; byte 9 (the tenth) contributes only its lowest
bit (`b & 0x01`), the others their low 7 bits (`b & 0x7f`); if the tenth byte
still has its high bit set the decode fails (`TooManyBytes`), and running out
of input fails (`TooFewBytes`). -/
def decodeVarintLoop : List Nat → Nat → Nat → Option (Nat × List Nat)
  | [], _, _ => none
  | b :: rest, i, acc =>
    if b < 128 then
      some ((acc + (if i = 9 then b % 2 else b % 128) * 2 ^ (7 * i)) % 2 ^ 64, rest)
    else if i = 9 then none
    else decodeVarintLoop rest (i + 1) (acc + b % 128 * 2 ^ (7 * i))

/-- `folly::tryDecodeVarint`: decode a varint from the front of `data`,
returning the value and the remaining bytes (the source advances the range). -/
def tryDecodeVarint (data : List Nat) : Option (Nat × List Nat) :=
  decodeVarintLoop data 0 0

/-- Decoding an encoded varint at byte index `i` adds `n * 2 ^ (7 * i)` to the
accumulator and leaves the trailing bytes untouched, provided `n` still fits in
the bits the remaining bytes can carry. -/
theorem decodeVarintLoop_encodeVarintFuel :
    ∀ (fuel n i acc : Nat) (rest : List Nat), n < fuel → n < 2 ^ (64 - 7 * i) →
      decodeVarintLoop (encodeVarintFuel fuel n ++ rest) i acc =
        some ((acc + n * 2 ^ (7 * i)) % 2 ^ 64, rest) := by
  intro fuel
  induction fuel with
  | zero => intro n i acc rest hf hn; omega
  | succ fuel ih =>
    intro n i acc rest hf hn
    by_cases h : n < 128
    · rw [encodeVarintFuel, if_pos h]
      simp only [List.cons_append, List.nil_append, decodeVarintLoop, if_pos h]
      by_cases hi : i = 9
      · subst hi
        have h2 : n < 2 := by
          have h1 : (64 : Nat) - 7 * 9 = 1 := by norm_num
          rw [h1] at hn; simpa using hn
        simp [Nat.mod_eq_of_lt h2]
      · simp [hi, Nat.mod_eq_of_lt h]
    · have h128 : 128 ≤ n := Nat.le_of_not_lt h
      have hile : 7 < 64 - 7 * i := by
        by_contra hcon
        have hle : 64 - 7 * i ≤ 7 := Nat.le_of_not_lt hcon
        have : (2 : Nat) ^ (64 - 7 * i) ≤ 2 ^ 7 :=
          Nat.pow_le_pow_right (by norm_num) hle
        omega
      have hi9 : i ≠ 9 := by omega
      rw [encodeVarintFuel, if_neg h]
      simp only [List.cons_append, decodeVarintLoop]
      rw [if_neg (by omega), if_neg hi9]
      have hdivlt : n / 128 < n := Nat.div_lt_self (by omega) (by norm_num)
      have hdivfuel : n / 128 < fuel := by omega
      have hdivbound : n / 128 < 2 ^ (64 - 7 * (i + 1)) := by
        have hexp : 64 - 7 * i = (64 - 7 * (i + 1)) + 7 := by omega
        rw [hexp, pow_add] at hn
        exact Nat.div_lt_of_lt_mul (by simpa [Nat.mul_comm] using hn)
      rw [List.append_eq,
        ih (n / 128) (i + 1) (acc + (128 + n % 128) % 128 * 2 ^ (7 * i))
          rest hdivfuel hdivbound]
      have hmod : (128 + n % 128) % 128 = n % 128 := by omega
      have hexp : 7 * (i + 1) = 7 * i + 7 := by ring
      have hsplit : n % 128 + 128 * (n / 128) = n := Nat.mod_add_div n 128
      have harith : acc + (128 + n % 128) % 128 * 2 ^ (7 * i) +
          n / 128 * 2 ^ (7 * (i + 1)) = acc + n * 2 ^ (7 * i) := by
        rw [hmod, hexp, pow_add]
        have h27 : (2 : Nat) ^ 7 = 128 := by norm_num
        rw [h27]
        calc acc + n % 128 * 2 ^ (7 * i) + n / 128 * (2 ^ (7 * i) * 128)
            = acc + (n % 128 + 128 * (n / 128)) * 2 ^ (7 * i) := by ring
          _ = acc + n * 2 ^ (7 * i) := by rw [hsplit]
      rw [harith]

/-- Whole-varint round trip: for any value that fits in a `uint64_t` (as every
`size_t` length does), decoding an encoded varint returns the value and the
trailing bytes. -/
theorem tryDecodeVarint_encodeVarint (n : Nat) (hn : n < 2 ^ 64)
    (rest : List Nat) :
    tryDecodeVarint (encodeVarint n ++ rest) = some (n, rest) := by
  unfold tryDecodeVarint encodeVarint
  have h0 : n < 2 ^ (64 - 7 * 0) := by norm_num; omega
  rw [decodeVarintLoop_encodeVarintFuel (n + 1) n 0 0 rest (by omega) h0]
  have hx : (0 + n * 2 ^ (7 * 0)) % 2 ^ 64 = n := by
    simp only [Nat.zero_add, Nat.mul_zero, pow_zero, Nat.mul_one]
    exact Nat.mod_eq_of_lt hn
  rw [hx]

/-! ## Filtered root id codec -/

/-- Errors of `parseFilterIdFromRootId`.  `malformedRootId` is the thrown
`std::invalid_argument` ("Could not decode varint; ...").  `outOfBoundsRead`
marks an access past the end of the root-id buffer, which in the C++ source is
undefined behaviour (no exception is thrown there). -/
inductive RootIdParseError
  | malformedRootId
  | outOfBoundsRead
deriving DecidableEq

/-- `FilteredBackingStore::createFilteredRootId`:
`varint(len(originalRootId)) ++ originalRootId ++ filterId`. -/
def createFilteredRootId (originalRootId filterId : List Nat) : List Nat :=
  encodeVarint originalRootId.length ++ originalRootId ++ filterId

/-- `parseFilterIdFromRootId`.  Decodes the leading varint (throwing
`std::invalid_argument` when that fails), then takes `expectedLength` bytes for
the inner root id via `std::string{begin, expectedLength}` and builds the
filter id via `std::string{begin + expectedLength}`.

Two behaviours of the source are modelled byte-faithfully:
* the source never checks `expectedLength` against the remaining size, so when
  the decoded length exceeds the remaining bytes the `std::string` constructor
  reads out of bounds — modelled as `outOfBoundsRead`;
* the filter id is built with the `const char*` (NUL-terminated) `std::string`
  constructor, which stops at the first NUL byte of the suffix (the buffer of
  a `std::string` is NUL-terminated at its end) — modelled with `takeWhile`. -/
def parseFilterIdFromRootId (rootId : List Nat) :
    Except RootIdParseError (List Nat × List Nat) :=
  match tryDecodeVarint rootId with
  | none => .error .malformedRootId
  | some (expectedLength, rootRange) =>
    if expectedLength ≤ rootRange.length then
      .ok (rootRange.take expectedLength,
        (rootRange.drop expectedLength).takeWhile (fun b => b ≠ 0))
    else .error .outOfBoundsRead

theorem takeWhile_ne_zero_eq_self (l : List Nat) (h : ∀ b ∈ l, b ≠ 0) :
    l.takeWhile (fun b => b ≠ 0) = l := by
  induction l with
  | nil => rfl
  | cons a l ihl =>
    have ha : a ≠ 0 := h a (by simp)
    have hl : ∀ b ∈ l, b ≠ 0 := fun b hb => h b (List.mem_cons_of_mem a hb)
    rw [List.takeWhile_cons, if_pos (by simp [ha]), ihl hl]

instance exceptDecidableEq {ε α : Type} [DecidableEq ε] [DecidableEq α] :
    DecidableEq (Except ε α)
  | .error a, .error b =>
    if h : a = b then .isTrue (by rw [h])
    else .isFalse (fun hc => h (Except.error.inj hc))
  | .error _, .ok _ => .isFalse (fun hc => Except.noConfusion hc)
  | .ok _, .error _ => .isFalse (fun hc => Except.noConfusion hc)
  | .ok a, .ok b =>
    if h : a = b then .isTrue (by rw [h])
    else .isFalse (fun hc => h (Except.ok.inj hc))

/-- C2 (amended): the root-id codec round-trips for every inner root id (any
bytes, any `size_t` length, varint-looking bytes included) and every filter id
that contains no NUL byte: parsing the created filtered root id returns exactly
the original pair.  (A NUL byte inside the filter id is truncated by the
`std::string (const char pointer)` constructor; see the counterexample.) -/
theorem parse_createFilteredRootId_roundTrip (originalRootId filterId : List Nat)
    (hlen : originalRootId.length < 2 ^ 64)
    (hfid : ∀ b ∈ filterId, b ≠ 0) :
    parseFilterIdFromRootId (createFilteredRootId originalRootId filterId) =
      .ok (originalRootId, filterId) := by
  unfold createFilteredRootId parseFilterIdFromRootId
  rw [List.append_assoc, tryDecodeVarint_encodeVarint _ hlen]
  have hle : originalRootId.length ≤ (originalRootId ++ filterId).length := by
    simp
  simp only [hle, if_true]
  rw [List.take_left, List.drop_left, takeWhile_ne_zero_eq_self filterId hfid]

/-- Witness for C2: a concrete round trip through the root-id codec, with an
inner root id whose bytes look like varints and contain a NUL. -/
theorem parse_createFilteredRootId_roundTrip_witness :
    parseFilterIdFromRootId (createFilteredRootId [128, 0, 200, 7] [201, 1]) =
      .ok ([128, 0, 200, 7], [201, 1]) :=
  parse_createFilteredRootId_roundTrip [128, 0, 200, 7] [201, 1]
    (by norm_num) (by decide)

/-- Counterexample for C2 as stated: with `inner_root = []` and
`filter_id = [0]` (a single NUL byte), parsing the created root id does not
return the pair — the NUL-terminated `std::string` constructor truncates the
filter id to the empty string. -/
theorem parse_createFilteredRootId_nulFilter_cex :
    parseFilterIdFromRootId (createFilteredRootId [] [0]) = .ok ([], []) ∧
    parseFilterIdFromRootId (createFilteredRootId [] [0]) ≠ .ok ([], [0]) := by
  constructor
  · rfl
  · decide

/-- C4 (code bug): when the leading varint cannot be decoded the parse fails
with the thrown `std::invalid_argument` (`malformedRootId`), as the claim
says; but on truncated input (varint decodes to a length larger than the
remaining bytes, e.g. `[5, 97]`) the source performs an out-of-bounds read via
`std::string(begin, expectedLength)` instead of failing with
`MalformedRootId`. -/
theorem parseFilterIdFromRootId_malformed_eval :
    parseFilterIdFromRootId [5, 97] = .error .outOfBoundsRead ∧
    parseFilterIdFromRootId [128] = .error .malformedRootId ∧
    parseFilterIdFromRootId
        [255, 255, 255, 255, 255, 255, 255, 255, 255, 255, 1] =
      .error .malformedRootId := by
  refine ⟨rfl, rfl, rfl⟩


/-! ## FilteredObjectId codec

Modelled from the spec: `FilteredObjectId.cpp`/`.h` is not part of this
repository's sources (only `FilteredBackingStore.cpp` is), so the codec is
modelled from spec sections 3, 4.A and 6: a filtered object id is a tagged,
length-prefixed binary record — a single tag byte (here BLOB = 0, TREE = 1,
everything else reserved) followed by the variant's fields; the TREE variant
carries `path`, `filter_id` and the inner object id, each of the first two
length-prefixed with a varint, the inner id running to the end of the
record. -/

/-- A decoded `FilteredObjectId`: either a BLOB wrapper around an inner object
id, a TREE record `(path, filter, inner object id)`, or a record with a
reserved (unrecognized) tag byte. -/
inductive FilteredObjectId
  | blob (object : List Nat)
  | tree (path filter object : List Nat)
  | reserved (tag : Nat)
deriving DecidableEq

/-- `FilteredObjectId::objectType()`: the tag byte. -/
def FilteredObjectId.objectType : FilteredObjectId → Nat
  | .blob _ => 0
  | .tree _ _ _ => 1
  | .reserved tag => tag

/-- Modelled from the spec: `encode_blob(inner_id)` — tag byte then the inner
id. -/
def encodeBlobFOID (object : List Nat) : List Nat :=
  0 :: object

/-- Modelled from the spec: `encode_tree(path, filter_id, inner_id)` — tag
byte, varint-length-prefixed path and filter id, then the inner id. -/
def encodeTreeFOID (path filterId object : List Nat) : List Nat :=
  1 :: (encodeVarint path.length ++ path ++
    encodeVarint filterId.length ++ filterId ++ object)

/-- The decode failure (`MalformedObjectId`): empty record, or a TREE record
whose length prefixes are undecodable or point past the end. -/
inductive FOIDError
  | malformedObjectId
deriving DecidableEq

/-- Modelled from the spec: `FilteredObjectId::fromObjectId` — parse the tag
byte and the variant's fields.  A reserved tag decodes successfully (spec
§4.E step 5 requires the comparison API, not the decoder, to reject it). -/
def FilteredObjectId.fromObjectId (bytes : List Nat) :
    Except FOIDError FilteredObjectId :=
  match bytes with
  | [] => .error .malformedObjectId
  | 0 :: rest => .ok (.blob rest)
  | 1 :: rest =>
    match tryDecodeVarint rest with
    | none => .error .malformedObjectId
    | some (pathLen, r1) =>
      if pathLen ≤ r1.length then
        match tryDecodeVarint (r1.drop pathLen) with
        | none => .error .malformedObjectId
        | some (filterLen, r2) =>
          if filterLen ≤ r2.length then
            .ok (.tree (r1.take pathLen) (r2.take filterLen) (r2.drop filterLen))
          else .error .malformedObjectId
      else .error .malformedObjectId
  | tag :: _ => .ok (.reserved tag)

/-- `ObjectComparison` (`eden/fs/store/BackingStore.h`). -/
inductive ObjectComparison
  | Unknown
  | Identical
  | Different
deriving DecidableEq

/-- `folly::Try`: a completed result, either a value or an exception (the
exception payload is irrelevant to the control flow and is dropped). -/
inductive Try (α : Type)
  | value (v : α)
  | exception
deriving DecidableEq

/-- `folly::ImmediateFuture`: either already completed (`isReady()` true,
holding a `Try`) or not yet completed. -/
inductive ImmediateFuture (α : Type)
  | ready (result : Try α)
  | pending
deriving DecidableEq

/-- Errors thrown by `compareObjectsById`: a decode failure propagated from
`FilteredObjectId::fromObjectId`, the `std::invalid_argument` for comparing
different types, the `std::runtime_error` for an unknown object type, and the
`std::runtime_error` thrown inside `pathAffectedByFilterChange`'s continuation
when a filter future completed with an exception. -/
inductive CompareError
  | malformedObjectId
  | invalidCompare
  | unknownObjectType
  | filterEvalFailed
deriving DecidableEq

/-- `FilteredBackingStore::pathAffectedByFilterChange`: evaluate
`isPathFiltered` for both `(path, filterId)` pairs, `collectAll` the two
futures (ready iff both are ready), then: throw if either completed with an
exception, otherwise report whether the two visibility bits differ. -/
def pathAffectedByFilterChange
    (isPathFiltered : List Nat → List Nat → ImmediateFuture Bool)
    (pathOne pathTwo filterIdOne filterIdTwo : List Nat) :
    ImmediateFuture Bool :=
  match isPathFiltered pathOne filterIdOne,
      isPathFiltered pathTwo filterIdTwo with
  | .ready (.value resultOne), .ready (.value resultTwo) =>
    if resultOne = resultTwo then .ready (.value false)
    else .ready (.value true)
  | .ready _, .ready _ => .ready .exception
  | _, _ => .pending

/-- `FilteredBackingStore::compareObjectsById`.  `innerCompare` is the inner
store's `compareObjectsById`; `isPathFiltered` is the filter.  Byte-equal ids
are `Identical` before any decoding; then both ids are decoded, ids of
different types throw, BLOBs delegate to the inner store, TREEs with equal
filters delegate, TREEs with different filters consult
`pathAffectedByFilterChange` only if it is already ready (returning `Unknown`
otherwise), and any remaining type throws. -/
def compareObjectsById
    (innerCompare : List Nat → List Nat → ObjectComparison)
    (isPathFiltered : List Nat → List Nat → ImmediateFuture Bool)
    (one two : List Nat) : Except CompareError ObjectComparison :=
  if one = two then .ok .Identical
  else
    match FilteredObjectId.fromObjectId one,
        FilteredObjectId.fromObjectId two with
    | .error _, _ => .error .malformedObjectId
    | .ok _, .error _ => .error .malformedObjectId
    | .ok filteredOne, .ok filteredTwo =>
      if filteredOne.objectType ≠ filteredTwo.objectType then
        .error .invalidCompare
      else
        match filteredOne, filteredTwo with
        | .blob objectOne, .blob objectTwo =>
          .ok (innerCompare objectOne objectTwo)
        | .tree pathOne filterOne objectOne,
            .tree pathTwo filterTwo objectTwo =>
          if filterOne = filterTwo then
            .ok (innerCompare objectOne objectTwo)
          else
            match pathAffectedByFilterChange isPathFiltered
                pathOne pathTwo filterOne filterTwo with
            | .ready (.value true) => .ok .Different
            | .ready (.value false) =>
              match innerCompare objectOne objectTwo with
              | .Identical => .ok .Unknown
              | res => .ok res
            | .ready .exception => .error .filterEvalFailed
            | .pending => .ok .Unknown
        | _, _ => .error .unknownObjectType

/-- C8: `compareObjectsById(id, id)` is `Identical` for every object id —
byte-equal arguments short-circuit before any decoding, so this holds even for
ids that are not valid `FilteredObjectId`s, and for every inner store and
filter. -/
theorem compareObjectsById_refl
    (innerCompare : List Nat → List Nat → ObjectComparison)
    (isPathFiltered : List Nat → List Nat → ImmediateFuture Bool)
    (id : List Nat) :
    compareObjectsById innerCompare isPathFiltered id id = .ok .Identical := by
  simp [compareObjectsById]

/-- C1: on two non-byte-equal TREE ids with different embedded filter ids,
when both filter evaluations are ready with values: disagreeing visibility
results give `Different`; agreeing results delegate to the inner comparison,
downgrading an inner `Identical` to `Unknown` and returning every other inner
result verbatim. -/
theorem compareObjectsById_treeFilterChange_bothReady
    (innerCompare : List Nat → List Nat → ObjectComparison)
    (isPathFiltered : List Nat → List Nat → ImmediateFuture Bool)
    (one two pathOne filterOne objectOne pathTwo filterTwo objectTwo : List Nat)
    (v1 v2 : Bool)
    (hone : FilteredObjectId.fromObjectId one =
      .ok (.tree pathOne filterOne objectOne))
    (htwo : FilteredObjectId.fromObjectId two =
      .ok (.tree pathTwo filterTwo objectTwo))
    (hne : one ≠ two) (hfilter : filterOne ≠ filterTwo)
    (h1 : isPathFiltered pathOne filterOne = .ready (.value v1))
    (h2 : isPathFiltered pathTwo filterTwo = .ready (.value v2)) :
    compareObjectsById innerCompare isPathFiltered one two =
      (if v1 = v2 then
        match innerCompare objectOne objectTwo with
        | .Identical => Except.ok .Unknown
        | res => Except.ok res
      else .ok .Different) := by
  by_cases hv : v1 = v2
  · subst hv
    simp only [compareObjectsById, pathAffectedByFilterChange, hone, htwo,
      h1, h2, if_neg hne, FilteredObjectId.objectType, ne_eq,
      not_true_eq_false, if_false, if_neg hfilter, if_pos rfl, if_pos trivial]
  · simp only [compareObjectsById, pathAffectedByFilterChange, hone, htwo,
      h1, h2, if_neg hne, FilteredObjectId.objectType, ne_eq,
      not_true_eq_false, if_false, if_neg hfilter, if_neg hv]

/-- C7: on two non-byte-equal TREE ids with different embedded filter ids,
whenever the combined filter-evaluation future is not already resolved,
`compareObjectsById` returns `Unknown` immediately instead of waiting for or
chaining onto it. -/
theorem compareObjectsById_pendingFilter_returnsUnknown
    (innerCompare : List Nat → List Nat → ObjectComparison)
    (isPathFiltered : List Nat → List Nat → ImmediateFuture Bool)
    (one two pathOne filterOne objectOne pathTwo filterTwo objectTwo : List Nat)
    (hone : FilteredObjectId.fromObjectId one =
      .ok (.tree pathOne filterOne objectOne))
    (htwo : FilteredObjectId.fromObjectId two =
      .ok (.tree pathTwo filterTwo objectTwo))
    (hne : one ≠ two) (hfilter : filterOne ≠ filterTwo)
    (hpending : pathAffectedByFilterChange isPathFiltered
      pathOne pathTwo filterOne filterTwo = .pending) :
    compareObjectsById innerCompare isPathFiltered one two = .ok .Unknown := by
  simp only [compareObjectsById, hone, htwo, if_neg hne,
    FilteredObjectId.objectType, ne_eq, not_true_eq_false, if_false,
    if_neg hfilter, hpending]

/-- Witness for C7: a concrete pending filter makes the comparison return
`Unknown`. -/
theorem compareObjectsById_pendingFilter_returnsUnknown_witness :
    compareObjectsById (fun _ _ => ObjectComparison.Identical)
      (fun _ _ => ImmediateFuture.pending)
      (encodeTreeFOID [10] [1] [7]) (encodeTreeFOID [11] [2] [7]) =
      .ok .Unknown :=
  compareObjectsById_pendingFilter_returnsUnknown
    (fun _ _ => ObjectComparison.Identical) (fun _ _ => ImmediateFuture.pending)
    (encodeTreeFOID [10] [1] [7]) (encodeTreeFOID [11] [2] [7])
    [10] [1] [7] [11] [2] [7] rfl rfl (by decide) (by decide) rfl

/-- Witness for C1: concrete TREE ids under filters that disagree on the two
paths; both filter evaluations are ready, so the comparison is `Different`. -/
theorem compareObjectsById_treeFilterChange_bothReady_witness :
    compareObjectsById (fun _ _ => ObjectComparison.Identical)
      (fun p _ => ImmediateFuture.ready (Try.value (p == [10])))
      (encodeTreeFOID [10] [1] [7]) (encodeTreeFOID [11] [2] [7]) =
      .ok .Different := by
  have h := compareObjectsById_treeFilterChange_bothReady
    (fun _ _ => ObjectComparison.Identical)
    (fun p _ => ImmediateFuture.ready (Try.value (p == [10])))
    (encodeTreeFOID [10] [1] [7]) (encodeTreeFOID [11] [2] [7])
    [10] [1] [7] [11] [2] [7] true false rfl rfl (by decide) (by decide)
    rfl rfl
  simpa using h

/-- C10: on two non-byte-equal TREE ids whose embedded filter ids differ,
`compareObjectsById` never returns `Identical`, whatever the filter futures
and the inner store report: every outcome of that branch is `Different`,
`Unknown`, or a raised error. -/
theorem compareObjectsById_treeFilterChange_neverIdentical
    (innerCompare : List Nat → List Nat → ObjectComparison)
    (isPathFiltered : List Nat → List Nat → ImmediateFuture Bool)
    (one two pathOne filterOne objectOne pathTwo filterTwo objectTwo : List Nat)
    (hone : FilteredObjectId.fromObjectId one =
      .ok (.tree pathOne filterOne objectOne))
    (htwo : FilteredObjectId.fromObjectId two =
      .ok (.tree pathTwo filterTwo objectTwo))
    (hne : one ≠ two) (hfilter : filterOne ≠ filterTwo) :
    compareObjectsById innerCompare isPathFiltered one two ≠
      .ok .Identical := by
  simp only [compareObjectsById, hone, htwo, if_neg hne,
    FilteredObjectId.objectType, ne_eq, not_true_eq_false, if_false,
    if_neg hfilter]
  cases hpa : pathAffectedByFilterChange isPathFiltered
      pathOne pathTwo filterOne filterTwo with
  | ready r =>
    cases r with
    | value v =>
      cases v
      · cases hic : innerCompare objectOne objectTwo <;> simp
      · simp
    | exception => simp
  | pending => simp

/-- Witness for C10: a concrete instance of the never-`Identical` branch, with
an inner store that reports `Identical` and a filter that is ready and finds
both paths visible. -/
theorem compareObjectsById_treeFilterChange_neverIdentical_witness :
    compareObjectsById (fun _ _ => ObjectComparison.Identical)
      (fun _ _ => ImmediateFuture.ready (Try.value false))
      (encodeTreeFOID [3] [1] [7]) (encodeTreeFOID [3] [2] [7]) ≠
      .ok .Identical :=
  compareObjectsById_treeFilterChange_neverIdentical
    (fun _ _ => ObjectComparison.Identical)
    (fun _ _ => ImmediateFuture.ready (Try.value false))
    (encodeTreeFOID [3] [1] [7]) (encodeTreeFOID [3] [2] [7])
    [3] [1] [7] [3] [2] [7] rfl rfl (by decide) (by decide)

/-- Amended C9, as a standalone specification of `compareObjectsById` on two
decoded ids: an error is raised exactly when the tags differ
(`invalidCompare`), when the shared tag is neither BLOB nor TREE
(`unknownObjectType`), or when — both ids being TREEs with differing filter
ids — the combined filter evaluation is ready but completed with an exception
(`filterEvalFailed`); two BLOB ids return the inner store's comparison of the
two inner ids, as do two TREE ids with equal filter ids. -/
def compareDecodedSpec
    (innerCompare : List Nat → List Nat → ObjectComparison)
    (isPathFiltered : List Nat → List Nat → ImmediateFuture Bool)
    (filteredOne filteredTwo : FilteredObjectId) :
    Except CompareError ObjectComparison :=
  if filteredOne.objectType ≠ filteredTwo.objectType then
    .error .invalidCompare
  else
    match filteredOne, filteredTwo with
    | .blob objectOne, .blob objectTwo =>
      .ok (innerCompare objectOne objectTwo)
    | .tree pathOne filterOne objectOne, .tree pathTwo filterTwo objectTwo =>
      if filterOne = filterTwo then
        .ok (innerCompare objectOne objectTwo)
      else
        match pathAffectedByFilterChange isPathFiltered
            pathOne pathTwo filterOne filterTwo with
        | .ready (.value true) => .ok .Different
        | .ready (.value false) =>
          match innerCompare objectOne objectTwo with
          | .Identical => .ok .Unknown
          | res => .ok res
        | .ready .exception => .error .filterEvalFailed
        | .pending => .ok .Unknown
    | _, _ => .error .unknownObjectType

/-- C9 (amended): on two non-byte-equal ids that both decode,
`compareObjectsById` behaves exactly as `compareDecodedSpec` on the decoded
records — in particular it errs exactly in the three cases that definition
enumerates (differing tags, shared reserved tag, or a TREE/TREE filter change
whose ready filter evaluation completed with an exception), and delegates to
the inner comparison for BLOB/BLOB and for equal-filter TREE/TREE. -/
theorem compareObjectsById_decoded_spec
    (innerCompare : List Nat → List Nat → ObjectComparison)
    (isPathFiltered : List Nat → List Nat → ImmediateFuture Bool)
    (one two : List Nat) (filteredOne filteredTwo : FilteredObjectId)
    (hone : FilteredObjectId.fromObjectId one = .ok filteredOne)
    (htwo : FilteredObjectId.fromObjectId two = .ok filteredTwo)
    (hne : one ≠ two) :
    compareObjectsById innerCompare isPathFiltered one two =
      compareDecodedSpec innerCompare isPathFiltered
        filteredOne filteredTwo := by
  simp only [compareObjectsById, compareDecodedSpec, hone, htwo, if_neg hne]

/-- Witness for the amended C9 at a concrete BLOB/BLOB input (where it reduces
to the inner store's comparison). -/
theorem compareObjectsById_decoded_spec_witness :
    compareObjectsById (fun _ _ => ObjectComparison.Different)
        (fun _ _ => ImmediateFuture.pending)
        (encodeBlobFOID [1]) (encodeBlobFOID [2]) =
      compareDecodedSpec (fun _ _ => ObjectComparison.Different)
        (fun _ _ => ImmediateFuture.pending) (.blob [1]) (.blob [2]) ∧
    compareDecodedSpec (fun _ _ => ObjectComparison.Different)
        (fun _ _ => ImmediateFuture.pending) (.blob [1]) (.blob [2]) =
      .ok .Different :=
  ⟨compareObjectsById_decoded_spec (fun _ _ => ObjectComparison.Different)
    (fun _ _ => ImmediateFuture.pending)
    (encodeBlobFOID [1]) (encodeBlobFOID [2]) (.blob [1]) (.blob [2])
    rfl rfl (by decide), rfl⟩

/-- Counterexample for C9 as stated: two TREE ids (equal tags, both
recognized) still make `compareObjectsById` raise an error when their filter
ids differ and the filter evaluation completed with an exception — an error
case beyond "tags differ or tag neither BLOB nor TREE". -/
theorem compareObjectsById_sameTag_error_cex :
    FilteredObjectId.fromObjectId (encodeTreeFOID [0] [1] [7]) =
      .ok (.tree [0] [1] [7]) ∧
    FilteredObjectId.fromObjectId (encodeTreeFOID [0] [2] [7]) =
      .ok (.tree [0] [2] [7]) ∧
    compareObjectsById (fun _ _ => ObjectComparison.Identical)
        (fun _ _ => ImmediateFuture.ready Try.exception)
        (encodeTreeFOID [0] [1] [7]) (encodeTreeFOID [0] [2] [7]) =
      .error .filterEvalFailed :=
  ⟨rfl, rfl, rfl⟩

/-! ## Tree model and the tree-filter transform -/

/-- `TreeEntryType` (`eden/fs/model/TreeEntry.h`): the kind of a tree
child. -/
inductive TreeEntryType
  | tree
  | regularFile
  | executableFile
  | symlink
deriving DecidableEq

/-- A `TreeEntry`: the child's inner-or-filtered object id (`getHash()`) and
its kind (`getType()`). -/
structure TreeEntry where
  hash : List Nat
  type : TreeEntryType
deriving DecidableEq

/-- `RelativePath` concatenation (`treePath + path`): components joined with a
slash (byte 47), with no leading slash when the left side is empty. -/
def pathConcat (treePath basename : List Nat) : List Nat :=
  if treePath = [] then basename else treePath ++ [47] ++ basename

/-- `FilteredBackingStore::filterImpl`: the tree-filter transform.  A tree is
a basename-keyed map, modelled as an association list in `PathMap` iteration
order (case sensitivity is irrelevant to the claims proved here).
`isPathFiltered` gives the eventual `folly::Try` outcome of the filter future
for a path — the transform's continuation runs after `collectAll`, so only
completed results reach it.  Per entry: a lookup that completed with an
exception is logged and the entry dropped; a filtered (`true`) entry is
dropped; a visible entry is re-inserted under its basename with its id
rewritten — a TREE child gets `FilteredObjectId(entryPath, filterId, hash)`,
every other kind gets the blob form `FilteredObjectId(hash)` — and its kind
preserved.  The transform itself always produces a map; it never fails. -/
def filterImpl (isPathFiltered : List Nat → List Nat → Try Bool)
    (unfilteredTree : List (List Nat × TreeEntry))
    (treePath filterId : List Nat) : List (List Nat × TreeEntry) :=
  unfilteredTree.filterMap fun entry =>
    match isPathFiltered (pathConcat treePath entry.1) filterId with
    | .exception => none
    | .value true => none
    | .value false =>
      match entry.2.type with
      | .tree => some (entry.1,
          ⟨encodeTreeFOID (pathConcat treePath entry.1) filterId entry.2.hash,
            .tree⟩)
      | t => some (entry.1, ⟨encodeBlobFOID entry.2.hash, t⟩)

/-- Errors of `getTree`: a decode failure from
`FilteredObjectId::fromObjectId`, or (modelled from the spec, §4.A) the
`WrongVariant` failure of the `path()`/`filter()` accessors when the id is
not a TREE id. -/
inductive GetTreeError
  | malformedObjectId
  | wrongVariant
deriving DecidableEq

/-- `FilteredBackingStore::getTree`: decode the id, fetch the inner tree for
the embedded inner id, apply the tree-filter transform with the id's embedded
path and filter, and return a tree carrying the original id bytes
(`filteredId.getValue()`). -/
def getTree (innerGetTree : List Nat → List (List Nat × TreeEntry))
    (isPathFiltered : List Nat → List Nat → Try Bool)
    (id : List Nat) :
    Except GetTreeError (List Nat × List (List Nat × TreeEntry)) :=
  match FilteredObjectId.fromObjectId id with
  | .error _ => .error .malformedObjectId
  | .ok (.tree treePath filterId innerId) =>
    .ok (id, filterImpl isPathFiltered (innerGetTree innerId) treePath filterId)
  | .ok _ => .error .wrongVariant

/-- `FilteredBackingStore::getRootTree`: split the root id into inner root id
and filter id, fetch the inner root tree (`innerGetRootTree` returns the
inner `GetRootTreeResult`: inner tree id and tree), apply the tree-filter
transform with the empty path, and wrap the result under the tree id
`FilteredObjectId(RelativePath(""), filterId, innerTreeId)`. -/
def getRootTree
    (innerGetRootTree : List Nat → List Nat × List (List Nat × TreeEntry))
    (isPathFiltered : List Nat → List Nat → Try Bool)
    (rootId : List Nat) :
    Except RootIdParseError (List Nat × List (List Nat × TreeEntry)) :=
  match parseFilterIdFromRootId rootId with
  | .error e => .error e
  | .ok (parsedRootId, filterId) =>
    .ok (encodeTreeFOID [] filterId (innerGetRootTree parsedRootId).1,
      filterImpl isPathFiltered (innerGetRootTree parsedRootId).2 [] filterId)

/-- Every entry of a transformed tree comes from an entry of the inner tree
under the same basename: its filter evaluation completed with `false`
(visible), its kind is preserved, and its id is the rewritten one. -/
theorem mem_filterImpl
    {isPathFiltered : List Nat → List Nat → Try Bool}
    {t : List (List Nat × TreeEntry)} {treePath filterId b : List Nat}
    {e : TreeEntry}
    (h : (b, e) ∈ filterImpl isPathFiltered t treePath filterId) :
    ∃ e0 : TreeEntry, (b, e0) ∈ t ∧
      isPathFiltered (pathConcat treePath b) filterId = .value false ∧
      e.type = e0.type ∧
      e.hash = (match e0.type with
        | .tree => encodeTreeFOID (pathConcat treePath b) filterId e0.hash
        | _ => encodeBlobFOID e0.hash) := by
  unfold filterImpl at h
  rw [List.mem_filterMap] at h
  obtain ⟨⟨b0, hash0, type0⟩, ha, hfa⟩ := h
  cases hfilter0 : isPathFiltered (pathConcat treePath b0) filterId with
  | exception =>
    rw [hfilter0] at hfa
    exact absurd hfa (by simp)
  | value v =>
    rw [hfilter0] at hfa
    cases v with
    | true => exact absurd hfa (by simp)
    | false =>
      cases type0 with
      | tree =>
        have hinj := Option.some.inj hfa
        rw [Prod.mk.injEq] at hinj
        obtain ⟨hb, he⟩ := hinj
        subst hb
        exact ⟨⟨hash0, .tree⟩, ha, hfilter0, by rw [← he], by rw [← he]⟩
      | regularFile =>
        have hinj := Option.some.inj hfa
        rw [Prod.mk.injEq] at hinj
        obtain ⟨hb, he⟩ := hinj
        subst hb
        exact ⟨⟨hash0, .regularFile⟩, ha, hfilter0, by rw [← he], by rw [← he]⟩
      | executableFile =>
        have hinj := Option.some.inj hfa
        rw [Prod.mk.injEq] at hinj
        obtain ⟨hb, he⟩ := hinj
        subst hb
        exact ⟨⟨hash0, .executableFile⟩, ha, hfilter0, by rw [← he],
          by rw [← he]⟩
      | symlink =>
        have hinj := Option.some.inj hfa
        rw [Prod.mk.injEq] at hinj
        obtain ⟨hb, he⟩ := hinj
        subst hb
        exact ⟨⟨hash0, .symlink⟩, ha, hfilter0, by rw [← he], by rw [← he]⟩

/-- C5: every entry of a tree returned by `getTree` or `getRootTree` comes
from an inner-tree entry under the same basename with its kind preserved,
and carries: for a TREE child, the id
`encodeTreeFOID(parent_path concat basename, parent_filter, inner_id)` (the
parent's filter and the extended path); for every other kind, the filterless
blob id `encodeBlobFOID(inner_id)`. -/
theorem filteredTree_filter_propagation :
    (∀ (innerGetTree : List Nat → List (List Nat × TreeEntry))
        (isPathFiltered : List Nat → List Nat → Try Bool)
        (id treePath filterId innerId : List Nat)
        (res : List Nat × List (List Nat × TreeEntry))
        (b : List Nat) (e : TreeEntry),
      FilteredObjectId.fromObjectId id =
        .ok (.tree treePath filterId innerId) →
      getTree innerGetTree isPathFiltered id = .ok res →
      (b, e) ∈ res.2 →
      ∃ e0 : TreeEntry, (b, e0) ∈ innerGetTree innerId ∧ e.type = e0.type ∧
        e.hash = (match e0.type with
          | .tree => encodeTreeFOID (pathConcat treePath b) filterId e0.hash
          | _ => encodeBlobFOID e0.hash)) ∧
    (∀ (innerGetRootTree : List Nat → List Nat × List (List Nat × TreeEntry))
        (isPathFiltered : List Nat → List Nat → Try Bool)
        (rootId innerRootId filterId : List Nat)
        (res : List Nat × List (List Nat × TreeEntry))
        (b : List Nat) (e : TreeEntry),
      parseFilterIdFromRootId rootId = .ok (innerRootId, filterId) →
      getRootTree innerGetRootTree isPathFiltered rootId = .ok res →
      (b, e) ∈ res.2 →
      ∃ e0 : TreeEntry, (b, e0) ∈ (innerGetRootTree innerRootId).2 ∧
        e.type = e0.type ∧
        e.hash = (match e0.type with
          | .tree => encodeTreeFOID (pathConcat [] b) filterId e0.hash
          | _ => encodeBlobFOID e0.hash)) := by
  constructor
  · intro innerGetTree isPathFiltered id treePath filterId innerId res b e
      hone hres hmem
    simp only [getTree, hone, Except.ok.injEq] at hres
    rw [← hres] at hmem
    obtain ⟨e0, hmem0, _, htype, hhash⟩ := mem_filterImpl hmem
    exact ⟨e0, hmem0, htype, hhash⟩
  · intro innerGetRootTree isPathFiltered rootId innerRootId filterId res b e
      hparse hres hmem
    simp only [getRootTree, hparse, Except.ok.injEq] at hres
    rw [← hres] at hmem
    obtain ⟨e0, hmem0, _, htype, hhash⟩ := mem_filterImpl hmem
    exact ⟨e0, hmem0, htype, hhash⟩

/-- Witness for C5: a concrete filtered `getTree` with one TREE child and one
file child, both visible; the TREE child's returned id embeds the parent's
filter and the concatenated path, the file child's id is the blob form. -/
theorem filteredTree_filter_propagation_witness :
    (∃ e0 : TreeEntry,
      ([3], e0) ∈ [([3], (⟨[9], .tree⟩ : TreeEntry)),
        ([4], (⟨[8], .regularFile⟩ : TreeEntry))] ∧
      (⟨encodeTreeFOID (pathConcat [5] [3]) [6] [9], .tree⟩ :
        TreeEntry).type = e0.type ∧
      (⟨encodeTreeFOID (pathConcat [5] [3]) [6] [9], .tree⟩ :
        TreeEntry).hash = (match e0.type with
          | .tree => encodeTreeFOID (pathConcat [5] [3]) [6] e0.hash
          | _ => encodeBlobFOID e0.hash)) := by
  refine filteredTree_filter_propagation.1
    (fun _ => [([3], ⟨[9], .tree⟩), ([4], ⟨[8], .regularFile⟩)])
    (fun _ _ => Try.value false) (encodeTreeFOID [5] [6] [7]) [5] [6] [7]
    (encodeTreeFOID [5] [6] [7],
      filterImpl (fun _ _ => Try.value false)
        [([3], ⟨[9], .tree⟩), ([4], ⟨[8], .regularFile⟩)] [5] [6])
    [3] ⟨encodeTreeFOID (pathConcat [5] [3]) [6] [9], .tree⟩
    rfl rfl (by decide)

/-- C6: in the tree-filter transform, an entry whose filter evaluation
completed with an error is simply omitted; all other entries are processed
exactly as they would be without it, and the transform (a total function)
does not fail. -/
theorem filterImpl_entryError_local
    (isPathFiltered : List Nat → List Nat → Try Bool)
    (t1 t2 : List (List Nat × TreeEntry)) (b : List Nat) (e : TreeEntry)
    (treePath filterId : List Nat)
    (herr : isPathFiltered (pathConcat treePath b) filterId = .exception) :
    filterImpl isPathFiltered (t1 ++ (b, e) :: t2) treePath filterId =
      filterImpl isPathFiltered (t1 ++ t2) treePath filterId := by
  unfold filterImpl
  rw [List.filterMap_append, List.filterMap_append, List.filterMap_cons]
  simp [herr]

/-- Witness for C6: dropping a concrete erroring entry leaves the transform of
the remaining entries unchanged. -/
theorem filterImpl_entryError_local_witness :
    filterImpl (fun p _ => if p = [1] then Try.exception else Try.value false)
        ([([0], (⟨[40], .regularFile⟩ : TreeEntry))] ++
          ([1], (⟨[41], .regularFile⟩ : TreeEntry)) ::
            [([2], (⟨[42], .tree⟩ : TreeEntry))]) [] [9] =
      filterImpl (fun p _ => if p = [1] then Try.exception else Try.value false)
        ([([0], (⟨[40], .regularFile⟩ : TreeEntry))] ++
          [([2], (⟨[42], .tree⟩ : TreeEntry))]) [] [9] :=
  filterImpl_entryError_local
    (fun p _ => if p = [1] then Try.exception else Try.value false)
    [([0], ⟨[40], .regularFile⟩)] [([2], ⟨[42], .tree⟩)]
    [1] ⟨[41], .regularFile⟩ [] [9] (by decide)

/-! ## Blob prefetch -/

/-- Errors of `prefetchBlobs`: a decode failure thrown while transforming an
id, or the out-of-bounds write of the transform itself. -/
inductive PrefetchError
  | malformedObjectId
  | outOfBoundsWrite
deriving DecidableEq

/-- `FilteredBackingStore::prefetchBlobs`.  The source declares
`std::vector<ObjectId> nonFilteredIds;` — default-constructed, size zero —
and then runs `std::transform(ids.begin(), ids.end(),
nonFilteredIds.begin(), ...)`.  `std::transform` computes the transformed
element (decoding the id, which can throw) and assigns it through the output
iterator; the output vector is empty, so already the first assignment writes
past its end — undefined behaviour, modelled as `outOfBoundsWrite`.  Only for
an empty input does the transform perform no write, and the (empty) batch is
forwarded to the inner store. -/
def prefetchBlobs {α : Type}
    (innerPrefetchBlobs : List (List Nat) → α)
    (ids : List (List Nat)) : Except PrefetchError α :=
  match ids with
  | [] => .ok (innerPrefetchBlobs [])
  | id0 :: _ =>
    match FilteredObjectId.fromObjectId id0 with
    | .error _ => .error .malformedObjectId
    | .ok _ => .error .outOfBoundsWrite

/-- C3 (code bug): `prefetch_blobs` forwards no non-empty batch — the first
transformed id is written out of bounds into the empty output vector; only
the empty batch reaches the inner store. -/
theorem prefetchBlobs_outOfBounds_eval :
    prefetchBlobs (fun innerIds => innerIds) [encodeBlobFOID [97]] =
      .error .outOfBoundsWrite ∧
    prefetchBlobs (fun innerIds => innerIds) [] = .ok [] :=
  ⟨rfl, rfl⟩
